import Mathlib

/-
  Verification of the Polymarket trading bot exit engine, PnL tracker and
  position sizer.

  Shallow embedding conventions:
  - prices and dollar amounts are rationals (the source uses JS numbers for
    exact small decimals such as 0.98, 1.03; all the properties below are
    about the arithmetic structure, not float rounding);
  - timestamps (Date.now) are naturals in milliseconds; the JS comparison
    (now - t) < interval agrees with truncated natural subtraction on both
    sides of every gate that uses it;
  - the external world (trade execution results, best-bid fetches) is passed
    in explicitly as data, so every function is a pure function of its state
    and its environment;
  - JS falsy-coalescing (x || y) on numbers is modelled as
    (if x = 0 then y else x), and on optional values via Option.
-/

namespace PolyBot

/-! ## Data model (take-profit manager, src part_006) -/

/-- Raw position as returned by the positions data source
(api.getWalletPositions). -/
structure RawPosition where
  tokenId : String
  size : ℚ
  avgPrice : ℚ
  currentPrice : ℚ
  marketSlug : String
  outcome : String
  deriving Repr, DecidableEq

/-- Position enriched with profit percent (getPositionsWithProfit). -/
structure Position where
  tokenId : String
  size : ℚ
  avgPrice : ℚ
  currentPrice : ℚ
  profitPercent : ℚ
  marketSlug : String
  outcome : String
  deriving Repr, DecidableEq

/-- TrackedPosition record of the take-profit manager (startedAt elided:
it is a display-only ISO string). -/
structure TrackedPosition where
  tokenId : String
  entryPrice : ℚ
  size : ℚ
  highestPrice : ℚ
  currentOrderId : Option String
  currentOrderPrice : ℚ
  marketSlug : String
  updateAttempts : ℕ
  lastUpdateTime : ℕ
  emergencyFailedCount : ℕ
  lastEmergencyAttempt : ℕ
  deriving Repr, DecidableEq

/-- Engine configuration taken from the TakeProfitManager constructor. -/
structure EngineConfig where
  profitTrigger : ℚ
  stopLossPercent : ℚ
  updateThreshold : ℚ
  stopLossEnabled : Bool
  deriving Repr, DecidableEq

/-- Max attempts to update order before forcing exit (MAX_UPDATE_ATTEMPTS). -/
def MAX_UPDATE_ATTEMPTS : ℕ := 5

/-- Sports markets trailing stop percent (SPORTS_TRAILING_STOP). -/
def SPORTS_TRAILING_STOP : ℚ := 25

/-- Slug markers of sports markets (the SPORTS string list of the source). -/
def sportsMarkers : List String :=
  ["nba-", "nfl-", "nhl-", "mlb-", "epl-", "ucl-", "boxing-", "ufc-",
   "mma-", "tennis-", "f1-", "cricket-", "soccer-"]

/-- isSportsMarket: slug starts with one of the sports markers. -/
def isSportsMarket (marketSlug : String) : Bool :=
  sportsMarkers.any (fun p => (marketSlug.toLower).startsWith p)

/-- getTrailingStop: sports markets use the wider stop. -/
def getTrailingStop (cfg : EngineConfig) (marketSlug : String) : ℚ :=
  if isSportsMarket marketSlug then SPORTS_TRAILING_STOP else cfg.stopLossPercent

/-- Emergency retry backoff ladder in milliseconds (1m, 5m, 15m, 30m). -/
def retryIntervals : List ℕ := [60000, 300000, 900000, 1800000]

/-- The cooldown interval the manage loop enforces for a given
emergencyFailedCount: retryIntervals[min(failCount, length - 1)]. -/
def retryIntervalFor (failCount : ℕ) : ℕ :=
  retryIntervals.getD (min failCount (retryIntervals.length - 1)) 1800000

/-- Percent profit of price p over the entry price. -/
def profitPct (entry p : ℚ) : ℚ := (p - entry) / entry * 100

/-- Percent drop of price p from the peak. -/
def dropFromPeakPct (highest p : ℚ) : ℚ := (highest - p) / highest * 100

/-- Outcome of one manageTrackedPosition call: which side effect the body
decided on (the cancelAndReplace / emergencyExit sub-calls are modelled as
separate functions below). -/
inductive MgmtAction
  /-- no order action taken this cycle -/
  | noOrderAction
  /-- new peak and the price rose past the update threshold: cancelAndReplace -/
  | replaceUp
  /-- trailing stop hit but stop loss is disabled: hold -/
  | holdDisabled
  /-- trailing stop hit but profit vs entry is below -1 percent: hold -/
  | holdLoss
  /-- trailing stop hit but still inside the emergency retry cooldown: hold -/
  | holdBackoff
  /-- trailing stop hit: emergencyExit -/
  | emergencyTrailing
  /-- price below order but inside the 30s reposition rate limit: hold -/
  | holdRateLimit
  /-- MAX_UPDATE_ATTEMPTS reached: emergencyExit -/
  | emergencyForced
  /-- price below order: cancelAndReplace -/
  | reposition
  deriving Repr, DecidableEq

/-- manageTrackedPosition (the synchronous state mutations plus the decision;
currentPrice is the observed market price, now is Date.now()). -/
def manageTrackedPosition (cfg : EngineConfig) (t : TrackedPosition)
    (currentPrice : ℚ) (now : ℕ) : TrackedPosition × MgmtAction :=
  if currentPrice > t.highestPrice then
    -- new peak: update highest price, reset attempts
    let t1 := { t with highestPrice := currentPrice, updateAttempts := 0 }
    if t.currentOrderId.isSome ∧ t.currentOrderPrice > 0 then
      let priceChange := (currentPrice - t.currentOrderPrice) / t.currentOrderPrice * 100
      if priceChange ≥ cfg.updateThreshold then (t1, .replaceUp)
      else (t1, .noOrderAction)
    else (t1, .noOrderAction)
  else
    let dropFromPeak := dropFromPeakPct t.highestPrice currentPrice
    let effectiveTrailingStop := getTrailingStop cfg t.marketSlug
    let profitNow := profitPct t.entryPrice currentPrice
    if dropFromPeak ≥ effectiveTrailingStop then
      if ¬ cfg.stopLossEnabled then (t, .holdDisabled)
      else if profitNow < -1 then (t, .holdLoss)
      else if 0 < t.lastEmergencyAttempt ∧
          now - t.lastEmergencyAttempt < retryIntervalFor t.emergencyFailedCount then
        (t, .holdBackoff)
      else (t, .emergencyTrailing)
    else if t.currentOrderId.isSome ∧ currentPrice < t.currentOrderPrice * (98/100) then
      if now - t.lastUpdateTime < 30000 then (t, .holdRateLimit)
      else
        let t2 := { t with updateAttempts := t.updateAttempts + 1 }
        if t2.updateAttempts ≥ MAX_UPDATE_ATTEMPTS then (t2, .emergencyForced)
        else (t2, .reposition)
    else (t, .noOrderAction)

/-- Price decision of placeOrUpdateOrder: either the limit price the order is
submitted at, or the redirect to emergencyExit (price below entry times 0.98). -/
inductive PlaceDecision
  | placeAt (price : ℚ)
  | toEmergency
  deriving Repr, DecidableEq

/-- The finalPrice computation of placeOrUpdateOrder. -/
def placeOrUpdatePrice (entryPrice currentPrice : ℚ) : PlaceDecision :=
  let orderPrice := currentPrice * (98/100)
  let minProfitPrice := entryPrice * (103/100)
  if currentPrice ≥ minProfitPrice then
    .placeAt (min (max orderPrice minProfitPrice) (99/100))
  else if currentPrice < entryPrice * (98/100) then
    .toEmergency
  else
    .placeAt (min (currentPrice * (98/100)) (99/100))

/-- Result of a trader.executeTrade call, with the error string abstracted
into its classification: ok, market-closed error (isMarketClosedError),
not-enough-balance error, or any other failure or thrown exception. -/
inductive TradeStatus
  | ok (orderId : Option String)
  | closedErr
  | noBalanceErr
  | otherErr
  deriving Repr, DecidableEq

/-- What placeOrUpdateOrder did to the tracked entry. -/
inductive PlaceAction
  /-- order submitted and recorded in currentOrderId / currentOrderPrice -/
  | ordered
  /-- redirected to emergencyExit (current price below entry times 0.98) -/
  | redirectedEmergency
  /-- entry removed from tracking (market closed or position gone) -/
  | deregistered
  /-- order failed, updateAttempts bumped -/
  | failed
  deriving Repr, DecidableEq

/-- placeOrUpdateOrder: sets lastUpdateTime, computes the final price, places
the order; a deregistered action means the caller deletes the entry. -/
def placeOrUpdateOrder (t0 : TrackedPosition) (currentPrice : ℚ) (now : ℕ)
    (res : TradeStatus) : TrackedPosition × PlaceAction :=
  let t := { t0 with lastUpdateTime := now }
  match placeOrUpdatePrice t.entryPrice currentPrice with
  | .toEmergency => (t, .redirectedEmergency)
  | .placeAt finalPrice =>
    match res with
    | .ok (some oid) =>
        ({ t with currentOrderId := some oid, currentOrderPrice := finalPrice }, .ordered)
    | .ok none =>
        ({ t with updateAttempts := t.updateAttempts + 1 }, .failed)
    | .closedErr => (t, .deregistered)
    | .noBalanceErr => (t, .deregistered)
    | .otherErr =>
        ({ t with updateAttempts := t.updateAttempts + 1 }, .failed)

/-- External responses consumed by one emergencyExit cascade: the best-bid
fetch (none when the fetch failed or there is no bid) and the trade result
of each tier. -/
structure EmergencyEnv where
  bid1 : Option ℚ
  res1 : TradeStatus
  bid2 : Option ℚ
  res2 : TradeStatus
  bid3 : Option ℚ
  res3 : TradeStatus
  deriving Repr, DecidableEq

/-- What the emergencyExit cascade ended in. -/
inductive EmergencyAction
  /-- a FOK sell filled at this price; the entry is deregistered -/
  | filled (price : ℚ)
  /-- market closed or resolved; the entry is deregistered -/
  | deregistered
  /-- last-resort GTC order placed; the entry stays tracked with that order -/
  | fallbackOrder
  /-- every tier failed; failure counters bumped -/
  | failedAll
  deriving Repr, DecidableEq

/-- Tier-1 target price: best bid times 0.98 when a positive best bid is
known, otherwise current price times 0.90. -/
def emergencyTargetPrice (currentPrice : ℚ) (bid : Option ℚ) : ℚ :=
  match bid with
  | some b => if b > 0 then b * (98/100) else currentPrice * (90/100)
  | none => currentPrice * (90/100)

/-- emergencyExit: cancel any live order, then the three-tier cascade
(FOK at an aggressive price, FOK at a very low price, last-resort GTC). -/
def emergencyExit (t0 : TrackedPosition) (currentPrice : ℚ) (now : ℕ)
    (env : EmergencyEnv) : TrackedPosition × EmergencyAction :=
  let t := { t0 with currentOrderId := none }
  let targetPrice := emergencyTargetPrice currentPrice env.bid1
  let aggressivePrice := min targetPrice (currentPrice * (95/100))
  match env.res1 with
  | .ok _ => (t, .filled aggressivePrice)
  | .closedErr => (t, .deregistered)
  | _ =>
    let veryLowPrice :=
      match env.bid2 with
      | some b => if b > 0 then b * (95/100) else currentPrice * (80/100)
      | none => currentPrice * (80/100)
    match env.res2 with
    | .ok _ => (t, .filled veryLowPrice)
    | .closedErr => (t, .deregistered)
    | _ =>
      let lastResortPrice :=
        match env.bid3 with
        | some b => if b > 0 then max (b * (90/100)) (1/100) else currentPrice * (70/100)
        | none => currentPrice * (70/100)
      match env.res3 with
      | .ok (some oid) =>
          ({ t with currentOrderId := some oid, currentOrderPrice := lastResortPrice },
           .fallbackOrder)
      | .closedErr => (t, .deregistered)
      | _ =>
          ({ t with emergencyFailedCount := t.emergencyFailedCount + 1,
                    lastEmergencyAttempt := now }, .failedAll)

/-- The effective current price of a raw position:
realPos.currentPrice || realPos.avgPrice. -/
def effectivePrice (p : RawPosition) : ℚ :=
  if p.currentPrice = 0 then p.avgPrice else p.currentPrice

/-- Restoration of one saved entry against its live position (body of the
loadState loop): raise the peak if the market moved up while offline, clear
the stale order id and price, refresh the size. -/
def restoreTracked (pos : TrackedPosition) (realPos : RawPosition) : TrackedPosition :=
  let currentPrice := effectivePrice realPos
  { pos with
    highestPrice := if currentPrice > pos.highestPrice then currentPrice else pos.highestPrice,
    currentOrderId := none,
    currentOrderPrice := 0,
    size := realPos.size }

/-- loadState: restore only saved entries whose token still appears among the
live positions with size above the dust threshold 0.01. -/
def loadState (saved : List TrackedPosition) (realPositions : List RawPosition) :
    List TrackedPosition :=
  let realTokenIds := (realPositions.filter (fun p => p.size > 1/100)).map (fun p => p.tokenId)
  saved.filterMap (fun pos =>
    if realTokenIds.contains pos.tokenId then
      match realPositions.find? (fun p => p.tokenId == pos.tokenId) with
      | some realPos => some (restoreTracked pos realPos)
      | none => none
    else none)

/-- getPositionsWithProfit applied to one raw position. -/
def toPositionWithProfit (p : RawPosition) : Position :=
  let avgPrice := p.avgPrice
  let currentPrice := if p.currentPrice = 0 then avgPrice else p.currentPrice
  let profitPercent := if avgPrice > 0 then (currentPrice - avgPrice) / avgPrice * 100 else 0
  { tokenId := p.tokenId, size := p.size, avgPrice := avgPrice,
    currentPrice := currentPrice, profitPercent := profitPercent,
    marketSlug := p.marketSlug, outcome := p.outcome }

/-- getPositionsWithProfit. -/
def getPositionsWithProfit (raw : List RawPosition) : List Position :=
  (raw.filter (fun p => p.size > 1/100)).map toPositionWithProfit

/-- How one position is dispatched by the checkAndManagePositions loop body. -/
inductive CycleAction
  /-- resolved-price skip: the position is not touched at all this cycle -/
  | skipResolved
  /-- untracked and at or past the profit trigger: startTracking -/
  | startTracking
  /-- already tracked: manageTrackedPosition runs -/
  | manage
  /-- untracked and below the profit trigger: nothing happens -/
  | ignore
  deriving Repr, DecidableEq

/-- The dispatch of one loop iteration of checkAndManagePositions, given the
set of currently tracked token ids. -/
def positionAction (cfg : EngineConfig) (trackedIds : List String) (pos : Position) :
    CycleAction :=
  if pos.currentPrice ≥ 99/100 ∨ pos.currentPrice ≤ 1/100 then .skipResolved
  else if trackedIds.contains pos.tokenId then .manage
  else if pos.profitPercent ≥ cfg.profitTrigger then .startTracking
  else .ignore

/-- cleanupClosedPositions: drop tracked entries whose token no longer
appears in the current position list. -/
def cleanupClosedPositions (trackedList : List TrackedPosition)
    (currentPositions : List Position) : List TrackedPosition :=
  let activeTokens := currentPositions.map (fun p => p.tokenId)
  trackedList.filter (fun t => activeTokens.contains t.tokenId)

/-! ## PnL tracker (src/pnl-tracker.ts) -/

/-- PositionSnapshot of the PnL tracker. -/
structure PositionSnapshot where
  tokenId : String
  size : ℚ
  avgPrice : ℚ
  currentPrice : ℚ
  marketSlug : String
  costBasis : ℚ
  currentValue : ℚ
  unrealizedPnL : ℚ
  deriving Repr, DecidableEq

/-- PnLSnapshot (timestamp elided: it is never read back). -/
structure PnLSnapshot where
  usdcBalance : ℚ
  positionsValue : ℚ
  totalEquity : ℚ
  positions : List PositionSnapshot
  deriving Repr, DecidableEq

/-- Mutable state of the PnLTracker. -/
structure PnLState where
  startSnapshot : Option PnLSnapshot
  currentSnapshot : Option PnLSnapshot
  realizedPnL : ℚ
  winCount : ℕ
  lossCount : ℕ
  deriving Repr, DecidableEq

/-- The PnLInfo record returned by getPnLInfo (the per-position display array
is elided: it is a pure projection of currentSnapshot.positions). -/
structure PnLInfo where
  startEquity : ℚ
  currentEquity : ℚ
  sessionPnL : ℚ
  sessionPnLPercent : ℚ
  realizedPnL : ℚ
  unrealizedPnL : ℚ
  usdcBalance : ℚ
  positionsValue : ℚ
  positionCount : ℕ
  winCount : ℕ
  lossCount : ℕ
  deriving Repr, DecidableEq

/-- takeSnapshot, as a function of the fetched balance and raw positions. -/
def takeSnapshot (balance : ℚ) (raw : List RawPosition) : PnLSnapshot :=
  let positions := (raw.filter (fun p => p.size > 1/100)).map (fun p =>
    let currentPrice := if p.currentPrice = 0 then p.avgPrice else p.currentPrice
    let costBasis := p.size * p.avgPrice
    let currentValue := p.size * currentPrice
    { tokenId := p.tokenId, size := p.size, avgPrice := p.avgPrice,
      currentPrice := currentPrice, marketSlug := p.marketSlug,
      costBasis := costBasis, currentValue := currentValue,
      unrealizedPnL := currentValue - costBasis })
  let positionsValue := positions.foldl (fun s p => s + p.currentValue) 0
  { usdcBalance := balance, positionsValue := positionsValue,
    totalEquity := balance + positionsValue, positions := positions }

/-- getPnLInfo. -/
def getPnLInfo (s : PnLState) : PnLInfo :=
  match s.startSnapshot, s.currentSnapshot with
  | some start, some curr =>
    let unrealizedPnL := curr.positions.foldl (fun acc p => acc + p.unrealizedPnL) 0
    let sessionPnLPercent :=
      if start.totalEquity > 0 then s.realizedPnL / start.totalEquity * 100 else 0
    { startEquity := start.totalEquity, currentEquity := curr.totalEquity,
      sessionPnL := s.realizedPnL, sessionPnLPercent := sessionPnLPercent,
      realizedPnL := s.realizedPnL, unrealizedPnL := unrealizedPnL,
      usdcBalance := curr.usdcBalance, positionsValue := curr.positionsValue,
      positionCount := curr.positions.length,
      winCount := s.winCount, lossCount := s.lossCount }
  | _, _ =>
    { startEquity := 0, currentEquity := 0, sessionPnL := 0, sessionPnLPercent := 0,
      realizedPnL := 0, unrealizedPnL := 0, usdcBalance := 0, positionsValue := 0,
      positionCount := 0, winCount := 0, lossCount := 0 }

/-- Accumulation of one detected closure into the tracker state (the body of
the closure loop in update). -/
def closePosition (s : PnLState) (p : PositionSnapshot) : PnLState :=
  let realized := p.unrealizedPnL
  { s with
    realizedPnL := s.realizedPnL + realized,
    winCount := if realized > 1/100 then s.winCount + 1 else s.winCount,
    lossCount := if realized < -(1/100) then s.lossCount + 1 else s.lossCount }

/-- update: the fetched argument is the result of takeSnapshot, none when
the balance or position fetch threw. Returns the new state, the list of
(tokenId, marketSlug) closure callback invocations, and the PnLInfo returned. -/
def update (s : PnLState) (fetched : Option PnLSnapshot) :
    PnLState × List (String × String) × PnLInfo :=
  match fetched with
  | none => (s, [], getPnLInfo s)
  | some snap =>
    let s1 := { s with currentSnapshot := some snap }
    match s.currentSnapshot with
    | none => (s1, [], getPnLInfo s1)
    | some prev =>
      let currentTokenIds := snap.positions.map (fun p => p.tokenId)
      let s2 := prev.positions.foldl
        (fun acc p => if currentTokenIds.contains p.tokenId then acc else closePosition acc p) s1
      let callbacks :=
        (prev.positions.filter (fun p => ! currentTokenIds.contains p.tokenId)).map
          (fun p => (p.tokenId, p.marketSlug))
      (s2, callbacks, getPnLInfo s2)

/-- The closures one update cycle detects: previous positions absent from the
fetched snapshot (empty when there was no previous snapshot). -/
def cycleClosures (prevOpt : Option PnLSnapshot) (snap : PnLSnapshot) :
    List PositionSnapshot :=
  match prevOpt with
  | none => []
  | some prev =>
      prev.positions.filter
        (fun p => ! (snap.positions.map (fun q => q.tokenId)).contains p.tokenId)

/-- A run of successful update cycles over the given fetched snapshots. -/
def runUpdates (s : PnLState) (snaps : List PnLSnapshot) : PnLState :=
  snaps.foldl (fun acc snap => (update acc (some snap)).1) s

/-- All closures detected across a run of update cycles, starting from the
given previous snapshot. -/
def closuresOfRun : Option PnLSnapshot → List PnLSnapshot → List PositionSnapshot
  | _, [] => []
  | prevOpt, snap :: rest => cycleClosures prevOpt snap ++ closuresOfRun (some snap) rest

/-! ## Position sizer (src/relayer.ts) -/

/-- SizingMode of the config. -/
inductive SizingMode
  | fixedMode
  | proportional
  deriving Repr, DecidableEq

/-- The slice of Config that PositionSizer reads. -/
structure SizerConfig where
  mode : SizingMode
  fixed_stake : Option ℚ
  min_stake : ℚ
  max_stake : ℚ
  deriving Repr, DecidableEq

/-- The slice of TradeEvent that PositionSizer.calculate reads
(traderBalance is optional in the source). -/
structure TradeEvent where
  usdcAmount : ℚ
  traderBalance : Option ℚ
  deriving Repr, DecidableEq

/-- SizingResult (reason string elided: display only). -/
structure SizingResult where
  originalAmount : ℚ
  scaledAmount : ℚ
  scalingFactor : ℚ
  mode : SizingMode
  capped : Bool
  deriving Repr, DecidableEq

/-- event.traderBalance || 0. -/
def orZero (b : Option ℚ) : ℚ :=
  match b with
  | some x => x
  | none => 0

/-- PositionSizer.applyLimits. -/
def applyLimits (cfg : SizerConfig) (stake : ℚ) : Bool × ℚ :=
  if stake < cfg.min_stake then (true, cfg.min_stake)
  else if stake > cfg.max_stake then (true, cfg.max_stake)
  else (false, stake)

/-- PositionSizer.calculate (myBalance is the sizer field set through the
constructor or setMyBalance). -/
def calculate (cfg : SizerConfig) (myBalance : ℚ) (event : TradeEvent) : SizingResult :=
  let originalAmount := event.usdcAmount
  let traderBalance := orZero event.traderBalance
  let fixedAmount :=
    match cfg.fixed_stake with
    | some f => f
    | none => cfg.min_stake
  let scaled : ℚ × ℚ :=
    match cfg.mode with
    | .fixedMode => (fixedAmount, 1)
    | .proportional =>
      if traderBalance > 0 ∧ myBalance > 0 then
        (originalAmount * (myBalance / traderBalance), myBalance / traderBalance)
      else (cfg.min_stake, 1)
  let limited := applyLimits cfg scaled.1
  { originalAmount := originalAmount, scaledAmount := limited.2,
    scalingFactor := scaled.2, mode := cfg.mode, capped := limited.1 }

/-! ## Theorems -/

/-- C9: when the balance or position fetch fails during an update cycle
(fetched = none), the tracker state is returned unchanged — the previous
snapshot stays current, the realized-PnL accumulator and win/loss counters
are untouched — no closure callback fires, and the call returns the
existing PnL info, leaving the retry to the next cycle. -/
theorem pnl_update_fetch_failure (s : PnLState) :
    update s none = (s, [], getPnLInfo s) := rfl

/-- C3: highestPrice is non-decreasing under every engine operation:
per-cycle management raises it exactly to a strictly higher observed price,
order placement and the emergency cascade never change it, and startup
restoration raises it exactly when the live effective price is above the
saved peak. -/
theorem highestPrice_monotone (cfg : EngineConfig) (t : TrackedPosition) (p : ℚ)
    (now : ℕ) (res : TradeStatus) (env : EmergencyEnv)
    (pos : TrackedPosition) (realPos : RawPosition) :
    (manageTrackedPosition cfg t p now).1.highestPrice
        = (if p > t.highestPrice then p else t.highestPrice)
    ∧ t.highestPrice ≤ (manageTrackedPosition cfg t p now).1.highestPrice
    ∧ (placeOrUpdateOrder t p now res).1.highestPrice = t.highestPrice
    ∧ (emergencyExit t p now env).1.highestPrice = t.highestPrice
    ∧ (restoreTracked pos realPos).highestPrice
        = (if effectivePrice realPos > pos.highestPrice then effectivePrice realPos
           else pos.highestPrice)
    ∧ pos.highestPrice ≤ (restoreTracked pos realPos).highestPrice := by
  have hm : (manageTrackedPosition cfg t p now).1.highestPrice
      = (if p > t.highestPrice then p else t.highestPrice) := by
    simp only [manageTrackedPosition]
    split_ifs <;> rfl
  have hr : (restoreTracked pos realPos).highestPrice
      = (if effectivePrice realPos > pos.highestPrice then effectivePrice realPos
         else pos.highestPrice) := by
    simp only [restoreTracked]
  refine ⟨hm, ?_, ?_, ?_, hr, ?_⟩
  · rw [hm]
    split_ifs with h
    · exact le_of_lt h
    · exact le_rfl
  · simp only [placeOrUpdateOrder]
    split
    · rfl
    · split <;> rfl
  · rcases env with ⟨b1, r1, b2, r2, b3, r3⟩
    cases r1 <;> cases r2 <;> cases r3 <;>
      first
        | rfl
        | (rename_i oid; cases oid <;> rfl)
  · rw [hr]
    split_ifs with h
    · exact le_of_lt h
    · exact le_rfl

/-- C10: a live position whose current price is at or above 0.99 or at or
below 0.01 is skipped entirely by the poll cycle — never started for
tracking and never managed — while cleanup keeps a tracked entry exactly as
long as its token is still in the live position list. -/
theorem resolved_positions_skipped (cfg : EngineConfig) (trackedIds : List String)
    (pos : Position) (trackedList : List TrackedPosition) (positions : List Position)
    (hres : pos.currentPrice ≥ 99/100 ∨ pos.currentPrice ≤ 1/100) :
    positionAction cfg trackedIds pos = .skipResolved
    ∧ (∀ t ∈ trackedList, t.tokenId ∈ positions.map (fun q => q.tokenId) →
        t ∈ cleanupClosedPositions trackedList positions)
    ∧ (∀ t ∈ trackedList, t.tokenId ∉ positions.map (fun q => q.tokenId) →
        t ∉ cleanupClosedPositions trackedList positions) := by
  refine ⟨?_, ?_, ?_⟩
  · unfold positionAction
    rw [if_pos hres]
  · intro t ht hmem
    simp only [cleanupClosedPositions, List.mem_filter]
    exact ⟨ht, by simpa using hmem⟩
  · intro t ht hmem hcontra
    simp only [cleanupClosedPositions, List.mem_filter] at hcontra
    exact hmem (by simpa using hcontra.2)

/-- Engine configuration matching the constructor defaults
(profit trigger 15, stop loss 15 enabled, update threshold 5). -/
def cfg0 : EngineConfig :=
  { profitTrigger := 15, stopLossPercent := 15, updateThreshold := 5,
    stopLossEnabled := true }

/-- A live position sitting at price 1 (market resolved). -/
def wPosResolved : Position :=
  { tokenId := "tokA", size := 10, avgPrice := 1/2, currentPrice := 1,
    profitPercent := 100, marketSlug := "election-market", outcome := "Yes" }

/-- Witness for C10 at a concrete resolved-price position. -/
theorem resolved_positions_skipped_witness :
    positionAction cfg0 [] wPosResolved = .skipResolved :=
  (resolved_positions_skipped cfg0 [] wPosResolved [] []
    (Or.inl (by norm_num [wPosResolved]))).1

/-- applyLimits clamps to the configured band and reports capping exactly
when the value changed. -/
theorem applyLimits_spec (cfg : SizerConfig) (stake : ℚ)
    (hmm : cfg.min_stake ≤ cfg.max_stake) :
    (applyLimits cfg stake).2 = max cfg.min_stake (min cfg.max_stake stake)
    ∧ ((applyLimits cfg stake).1 = true ↔ (applyLimits cfg stake).2 ≠ stake) := by
  unfold applyLimits
  split_ifs with h1 h2
  · refine ⟨?_, ?_⟩
    · rw [min_eq_right (le_of_lt (lt_of_lt_of_le h1 hmm)), max_eq_left (le_of_lt h1)]
    · simp only [true_iff]
      exact fun hc => absurd hc.symm (ne_of_lt h1)
  · refine ⟨?_, ?_⟩
    · rw [min_eq_left (le_of_lt h2), max_eq_right hmm]
    · simp only [true_iff]
      exact fun hc => absurd hc (ne_of_lt h2)
  · refine ⟨?_, ?_⟩
    · rw [min_eq_right (not_lt.mp h2), max_eq_right (not_lt.mp h1)]
    · simp

/-- The sizer config used by the concrete scenario of the spec
(proportional, stakes clamped to [5, 300] as in the shipped CONFIG). -/
def cfgSizer : SizerConfig :=
  { mode := .proportional, fixed_stake := none, min_stake := 5, max_stake := 300 }

/-- The whale trade of the concrete scenario: a 1700 dollar trade by a
wallet holding 3.5 million dollars. -/
def evWhale : TradeEvent := { usdcAmount := 1700, traderBalance := some 3500000 }

/-- C5: in proportional mode, calculate returns
observedAmount times (operatorBalance / counterpartBalance) clamped to
[min_stake, max_stake], falls back to min_stake when either balance is
missing or not positive, reports capping exactly when clamping changed the
value, and on the concrete whale scenario (10 vs 3,500,000, amount 1700,
min 5) yields stake 5 with capped true. -/
theorem sizer_proportional_spec (cfg : SizerConfig) (myBalance : ℚ) (event : TradeEvent)
    (hmode : cfg.mode = .proportional) (hmm : cfg.min_stake ≤ cfg.max_stake) :
    (orZero event.traderBalance > 0 → myBalance > 0 →
      (calculate cfg myBalance event).scaledAmount
        = max cfg.min_stake (min cfg.max_stake
            (event.usdcAmount * (myBalance / orZero event.traderBalance)))
      ∧ ((calculate cfg myBalance event).capped = true ↔
          (calculate cfg myBalance event).scaledAmount
            ≠ event.usdcAmount * (myBalance / orZero event.traderBalance)))
    ∧ (¬ (orZero event.traderBalance > 0 ∧ myBalance > 0) →
      (calculate cfg myBalance event).scaledAmount = cfg.min_stake
      ∧ (calculate cfg myBalance event).capped = false)
    ∧ (calculate cfgSizer 10 evWhale).scaledAmount = 5
    ∧ (calculate cfgSizer 10 evWhale).capped = true := by
  refine ⟨?_, ?_, ?_, ?_⟩
  · intro htb hmy
    have hcalc : calculate cfg myBalance event =
        { originalAmount := event.usdcAmount,
          scaledAmount := (applyLimits cfg
            (event.usdcAmount * (myBalance / orZero event.traderBalance))).2,
          scalingFactor := myBalance / orZero event.traderBalance,
          mode := cfg.mode,
          capped := (applyLimits cfg
            (event.usdcAmount * (myBalance / orZero event.traderBalance))).1 } := by
      simp only [calculate, hmode]
      rw [if_pos ⟨htb, hmy⟩]
    rw [hcalc]
    exact applyLimits_spec cfg _ hmm
  · intro hnb
    have hcalc : calculate cfg myBalance event =
        { originalAmount := event.usdcAmount,
          scaledAmount := (applyLimits cfg cfg.min_stake).2,
          scalingFactor := 1,
          mode := cfg.mode,
          capped := (applyLimits cfg cfg.min_stake).1 } := by
      simp only [calculate, hmode]
      rw [if_neg hnb]
    rw [hcalc]
    unfold applyLimits
    rw [if_neg (lt_irrefl cfg.min_stake), if_neg (not_lt.mpr hmm)]
    exact ⟨rfl, rfl⟩
  · norm_num [calculate, applyLimits, orZero, cfgSizer, evWhale]
  · norm_num [calculate, applyLimits, orZero, cfgSizer, evWhale]

/-- Witness for C5: the concrete whale scenario clamps to the 5 dollar
minimum stake with the capped flag set. -/
theorem sizer_proportional_spec_witness :
    (calculate cfgSizer 10 evWhale).scaledAmount = 5
    ∧ (calculate cfgSizer 10 evWhale).capped = true :=
  ⟨(sizer_proportional_spec cfgSizer 10 evWhale rfl (by norm_num [cfgSizer])).2.2.1,
   (sizer_proportional_spec cfgSizer 10 evWhale rfl (by norm_num [cfgSizer])).2.2.2⟩

/-- The backoff interval is monotone from any ladder index to the next. -/
theorem retryIntervalFor_le_succ (j : ℕ) :
    retryIntervalFor j ≤ retryIntervalFor (j + 1) := by
  have h : ∀ m, 3 ≤ m → retryIntervalFor m = 1800000 := by
    intro m hm
    unfold retryIntervalFor retryIntervals
    have h3 : min m ([60000, 300000, 900000, 1800000].length - 1) = 3 := by
      simp only [List.length_cons, List.length_nil]
      omega
    rw [h3]
    rfl
  match j with
  | 0 => decide
  | 1 => decide
  | 2 => decide
  | n + 3 => rw [h (n + 3) (by omega), h (n + 4) (by omega)]

/-- C7: with k at least 1 prior consecutive failed emergency-exit attempts
recorded (so lastEmergencyAttempt is set), no trailing-stop emergency
escalation is attempted before the k-th entry of the 1, 5, 15, 30 minute
backoff ladder (30 repeating past the end) has elapsed since the last
attempt; the code in fact enforces the even larger wait
retryIntervals[min(k, 3)]. -/
theorem emergency_backoff (cfg : EngineConfig) (t : TrackedPosition) (p : ℚ)
    (now : ℕ) (k : ℕ) (hk : t.emergencyFailedCount = k) (hk1 : 1 ≤ k)
    (hlast : 0 < t.lastEmergencyAttempt)
    (hwait : now - t.lastEmergencyAttempt
        < retryIntervals.getD (min (k - 1) (retryIntervals.length - 1)) 1800000) :
    (manageTrackedPosition cfg t p now).2 ≠ MgmtAction.emergencyTrailing := by
  have hwait2 : now - t.lastEmergencyAttempt < retryIntervalFor (k - 1) := hwait
  have hmono : retryIntervalFor (k - 1) ≤ retryIntervalFor k := by
    have := retryIntervalFor_le_succ (k - 1)
    rwa [Nat.sub_add_cancel hk1] at this
  have hgate : 0 < t.lastEmergencyAttempt ∧
      now - t.lastEmergencyAttempt < retryIntervalFor t.emergencyFailedCount := by
    refine ⟨hlast, ?_⟩
    rw [hk]
    exact lt_of_lt_of_le hwait2 hmono
  simp only [manageTrackedPosition]
  split_ifs <;> simp_all

/-- A tracked position one failed emergency attempt deep, 29 seconds after
that attempt. -/
def wBackoffT : TrackedPosition :=
  { tokenId := "tokB", entryPrice := 1/2, size := 10, highestPrice := 3/5,
    currentOrderId := none, currentOrderPrice := 0, marketSlug := "election-market",
    updateAttempts := 0, lastUpdateTime := 0, emergencyFailedCount := 1,
    lastEmergencyAttempt := 1000 }

/-- Witness for C7: 29 seconds after a first failed emergency attempt (below
the 1 minute first ladder entry) no trailing-stop escalation is attempted. -/
theorem emergency_backoff_witness :
    (manageTrackedPosition cfg0 wBackoffT (1/2) 30000).2
      ≠ MgmtAction.emergencyTrailing :=
  emergency_backoff cfg0 wBackoffT (1/2) 30000 1 rfl (by decide)
    (by decide) (by decide)

/-- The effective trailing stop is either the sports value or the configured
stop-loss percent. -/
theorem getTrailingStop_cases (cfg : EngineConfig) (slug : String) :
    getTrailingStop cfg slug = SPORTS_TRAILING_STOP
    ∨ getTrailingStop cfg slug = cfg.stopLossPercent := by
  unfold getTrailingStop
  split_ifs <;> simp

/-- C1 amended: while stop loss is enabled, a trailing-stop breach whose
profit versus entry at the observed price is below -1 percent executes no
emergency exit and leaves the tracked entry unchanged for re-evaluation.
(The -1 percent gate is evaluated at the observed price only; see the
counterexample for the realized execution price.) -/
theorem trailing_stop_loss_gate (cfg : EngineConfig) (t : TrackedPosition) (p : ℚ)
    (now : ℕ) (henabled : cfg.stopLossEnabled = true)
    (hpeak : ¬ p > t.highestPrice)
    (hdrop : dropFromPeakPct t.highestPrice p ≥ getTrailingStop cfg t.marketSlug)
    (hloss : profitPct t.entryPrice p < -1) :
    manageTrackedPosition cfg t p now = (t, MgmtAction.holdLoss) := by
  simp only [manageTrackedPosition]
  rw [if_neg hpeak, if_pos hdrop, if_neg (by simp [henabled]), if_pos hloss]

/-- A tracked position at entry 0.5 with peak 0.6, used to witness the
hold-at-loss gate at price 0.4. -/
def wLossT : TrackedPosition :=
  { tokenId := "tokD", entryPrice := 1/2, size := 10, highestPrice := 3/5,
    currentOrderId := none, currentOrderPrice := 0, marketSlug := "election-market",
    updateAttempts := 0, lastUpdateTime := 0, emergencyFailedCount := 0,
    lastEmergencyAttempt := 0 }

/-- Witness for C1: price 0.4 is 33 percent below the 0.6 peak (over any
trailing stop) but 20 percent below entry, so the engine holds. -/
theorem trailing_stop_loss_gate_witness :
    manageTrackedPosition cfg0 wLossT (2/5) 0 = (wLossT, MgmtAction.holdLoss) :=
  trailing_stop_loss_gate cfg0 wLossT (2/5) 0 rfl
    (by norm_num [wLossT])
    (by rcases getTrailingStop_cases cfg0 wLossT.marketSlug with h | h <;>
          rw [ge_iff_le, h] <;>
          norm_num [dropFromPeakPct, wLossT, cfg0, SPORTS_TRAILING_STOP])
    (by norm_num [profitPct, wLossT])

/-- A tracked position at entry 0.45 whose price returned exactly to entry
after peaking at 0.6 (a 25 percent drawdown at zero profit). -/
def cexLossT : TrackedPosition :=
  { tokenId := "tokE", entryPrice := 9/20, size := 10, highestPrice := 3/5,
    currentOrderId := none, currentOrderPrice := 0, marketSlug := "election-market",
    updateAttempts := 0, lastUpdateTime := 0, emergencyFailedCount := 0,
    lastEmergencyAttempt := 0 }

/-- Emergency environment for the C1 counterexample: the order book shows a
best bid equal to the observed price and the first FOK sell fills. -/
def cexLossEnv : EmergencyEnv :=
  { bid1 := some (9/20), res1 := .ok none, bid2 := none, res2 := .otherErr,
    bid3 := none, res3 := .otherErr }

/-- C1 counterexample: at zero profit versus entry (well within the -1
percent tolerance) a 25 percent drawdown triggers the trailing-stop
emergency exit, and the completed tier-1 FOK sale executes at
min(bestBid times 0.98, price times 0.95) = 0.4275, realizing -5 percent
versus entry — worse than the claimed -1 percent bound. -/
theorem trailing_stop_loss_counterexample :
    (manageTrackedPosition cfg0 cexLossT (9/20) 1000000).2 = MgmtAction.emergencyTrailing
    ∧ (manageTrackedPosition cfg0 cexLossT (9/20) 1000000).1 = cexLossT
    ∧ profitPct cexLossT.entryPrice (9/20) ≥ -1
    ∧ (emergencyExit cexLossT (9/20) 1000000 cexLossEnv).2
        = EmergencyAction.filled (171/400)
    ∧ profitPct cexLossT.entryPrice (171/400) < -1 := by
  have hstop : getTrailingStop cfg0 cexLossT.marketSlug ≤ 25 := by
    rcases getTrailingStop_cases cfg0 cexLossT.marketSlug with h | h <;> rw [h] <;>
      norm_num [cfg0, SPORTS_TRAILING_STOP]
  have hdrop : dropFromPeakPct cexLossT.highestPrice (9/20)
      ≥ getTrailingStop cfg0 cexLossT.marketSlug := by
    have h25 : dropFromPeakPct cexLossT.highestPrice (9/20) = 25 := by
      norm_num [dropFromPeakPct, cexLossT]
    rw [ge_iff_le, h25]
    exact hstop
  have hmanage : manageTrackedPosition cfg0 cexLossT (9/20) 1000000
      = (cexLossT, MgmtAction.emergencyTrailing) := by
    simp only [manageTrackedPosition]
    rw [if_neg (by norm_num [cexLossT]), if_pos hdrop,
      if_neg (by simp [cfg0]),
      if_neg (by norm_num [profitPct, cexLossT]),
      if_neg (by simp [cexLossT])]
  have hexit : (emergencyExit cexLossT (9/20) 1000000 cexLossEnv).2
      = EmergencyAction.filled (171/400) := by
    simp only [emergencyExit, cexLossEnv, emergencyTargetPrice]
    norm_num
  refine ⟨by rw [hmanage], by rw [hmanage], ?_, hexit, ?_⟩
  · norm_num [profitPct, cexLossT]
  · norm_num [profitPct, cexLossT]

/-- C2 amended: the placed order price is
min(max(current times 0.98, entry times 1.03), 0.99) — hence at least
min(entry times 1.03, 0.99) — whenever the current price is at or above the
entry times 1.03 floor; when the current price is between entry times 0.98
and the floor the order is deliberately placed at
min(current times 0.98, 0.99), which can be below the floor, without
entering emergency liquidation; below entry times 0.98 the call redirects
to the emergency exit. -/
theorem order_price_spec (entry current : ℚ) (hentry : 0 < entry) :
    (entry * (103/100) ≤ current →
      placeOrUpdatePrice entry current
        = PlaceDecision.placeAt
            (min (max (current * (98/100)) (entry * (103/100))) (99/100))
      ∧ min (entry * (103/100)) (99/100)
          ≤ min (max (current * (98/100)) (entry * (103/100))) (99/100))
    ∧ (current < entry * (103/100) → entry * (98/100) ≤ current →
        placeOrUpdatePrice entry current
          = PlaceDecision.placeAt (min (current * (98/100)) (99/100)))
    ∧ (current < entry * (98/100) →
        placeOrUpdatePrice entry current = PlaceDecision.toEmergency) := by
  refine ⟨?_, ?_, ?_⟩
  · intro hfloor
    constructor
    · simp only [placeOrUpdatePrice]
      rw [if_pos hfloor]
    · exact min_le_min (le_max_right _ _) le_rfl
  · intro hlow hab
    simp only [placeOrUpdatePrice]
    rw [if_neg (not_le.mpr hlow), if_neg (not_lt.mpr hab)]
  · intro hvlow
    have hlow : current < entry * (103/100) := by
      have : entry * (98/100) < entry * (103/100) := by
        have := mul_lt_mul_of_pos_left (show (98/100 : ℚ) < 103/100 by norm_num) hentry
        linarith
      linarith
    simp only [placeOrUpdatePrice]
    rw [if_neg (not_le.mpr hlow), if_pos hvlow]

/-- Witness for C2: at entry 0.5 and current price 0.52 (above the 0.515
floor) the placed price is the floor-clamped value. -/
theorem order_price_spec_witness :
    placeOrUpdatePrice (1/2) (13/25)
      = PlaceDecision.placeAt
          (min (max ((13/25) * (98/100)) ((1/2) * (103/100))) (99/100)) :=
  ((order_price_spec (1/2) (13/25) (by norm_num)).1 (by norm_num)).1

/-- A tracked position at entry 0.5, used for the C2 counterexample. -/
def cexOrderT : TrackedPosition :=
  { tokenId := "tokF", entryPrice := 1/2, size := 10, highestPrice := 11/20,
    currentOrderId := none, currentOrderPrice := 0, marketSlug := "election-market",
    updateAttempts := 0, lastUpdateTime := 0, emergencyFailedCount := 0,
    lastEmergencyAttempt := 0 }

/-- C2 counterexample: at entry 0.5 and current price 0.51 — below the
minimum-profit floor 0.515 but above entry times 0.98 — the order is placed
(not emergency liquidation) and the recorded non-zero order price 0.4998
is strictly below the entryPrice times 1.03 floor; the price is also not 2
percent below current whenever current is at or above the floor: at current
0.52 the placed price is the floor 0.515, not 0.5096. -/
theorem order_price_floor_counterexample :
    placeOrUpdatePrice (1/2) (51/100) = PlaceDecision.placeAt (2499/5000)
    ∧ (2499/5000 : ℚ) < (1/2) * (103/100)
    ∧ (placeOrUpdateOrder cexOrderT (51/100) 777 (TradeStatus.ok (some "oid1"))).2
        = PlaceAction.ordered
    ∧ (placeOrUpdateOrder cexOrderT (51/100) 777
        (TradeStatus.ok (some "oid1"))).1.currentOrderPrice = 2499/5000
    ∧ (2499/5000 : ℚ) ≠ 0
    ∧ placeOrUpdatePrice (1/2) (13/25) = PlaceDecision.placeAt (103/200)
    ∧ (103/200 : ℚ) ≠ (13/25) * (98/100) := by
  have h1 : placeOrUpdatePrice (1/2) (51/100) = PlaceDecision.placeAt (2499/5000) := by
    simp only [placeOrUpdatePrice]
    rw [if_neg (by norm_num), if_neg (by norm_num)]
    norm_num
  have h2 : placeOrUpdatePrice (1/2) (13/25) = PlaceDecision.placeAt (103/200) := by
    simp only [placeOrUpdatePrice]
    rw [if_pos (by norm_num)]
    norm_num
  have h3 : (placeOrUpdateOrder cexOrderT (51/100) 777 (TradeStatus.ok (some "oid1"))).2
        = PlaceAction.ordered
      ∧ (placeOrUpdateOrder cexOrderT (51/100) 777
          (TradeStatus.ok (some "oid1"))).1.currentOrderPrice = 2499/5000 := by
    simp only [placeOrUpdateOrder, cexOrderT]
    rw [show placeOrUpdatePrice (1/2) (51/100) = PlaceDecision.placeAt (2499/5000) from h1]
    exact ⟨rfl, rfl⟩
  refine ⟨h1, by norm_num, h3.1, h3.2, by norm_num, h2, by norm_num⟩

/-- C6 amended: the upward cancel-and-replace fires exactly when a new peak
is observed and the price exceeds the standing order price by at least the
update threshold, with no rate limit; the downward cancel-and-replace fires
only when the price is below 98 percent of the order price (a fixed 2
percent band, not the update threshold), at least 30 seconds have elapsed
since lastUpdateTime, and the attempt ceiling is not reached. -/
theorem reposition_spec (cfg : EngineConfig) (t : TrackedPosition) (p : ℚ) (now : ℕ) :
    ((manageTrackedPosition cfg t p now).2 = MgmtAction.replaceUp ↔
      p > t.highestPrice ∧ (t.currentOrderId.isSome ∧ t.currentOrderPrice > 0)
        ∧ (p - t.currentOrderPrice) / t.currentOrderPrice * 100 ≥ cfg.updateThreshold)
    ∧ ((manageTrackedPosition cfg t p now).2 = MgmtAction.reposition →
      ¬ p > t.highestPrice
      ∧ dropFromPeakPct t.highestPrice p < getTrailingStop cfg t.marketSlug
      ∧ t.currentOrderId.isSome ∧ p < t.currentOrderPrice * (98/100)
      ∧ 30000 ≤ now - t.lastUpdateTime
      ∧ t.updateAttempts + 1 < MAX_UPDATE_ATTEMPTS) := by
  simp only [manageTrackedPosition]
  split_ifs <;> simp_all [not_lt]

/-- A tracked position with a live order at 0.5 below a 0.6 peak, used to
witness the upward cancel-and-replace. -/
def wRepoUpT : TrackedPosition :=
  { tokenId := "tokG", entryPrice := 1/2, size := 10, highestPrice := 3/5,
    currentOrderId := some "o8", currentOrderPrice := 1/2,
    marketSlug := "election-market", updateAttempts := 0, lastUpdateTime := 0,
    emergencyFailedCount := 0, lastEmergencyAttempt := 0 }

/-- Witness for C6: a new peak at 0.63, 26 percent above the standing order
price, triggers the upward cancel-and-replace. -/
theorem reposition_spec_witness :
    (manageTrackedPosition cfg0 wRepoUpT (63/100) 0).2 = MgmtAction.replaceUp :=
  (reposition_spec cfg0 wRepoUpT (63/100) 0).1.mpr
    ⟨by norm_num [wRepoUpT], ⟨by simp [wRepoUpT], by norm_num [wRepoUpT]⟩,
     by norm_num [wRepoUpT, cfg0]⟩

/-- A tracked position with a live order at 0.6 equal to its 0.6 peak, ready
for a downward reposition at price 0.58. -/
def cexRepoT : TrackedPosition :=
  { tokenId := "tokH", entryPrice := 1/2, size := 10, highestPrice := 3/5,
    currentOrderId := some "o7", currentOrderPrice := 3/5,
    marketSlug := "election-market", updateAttempts := 0, lastUpdateTime := 0,
    emergencyFailedCount := 0, lastEmergencyAttempt := 0 }

/-- C6 counterexample: at price 0.58 — a movement of only 10/3 percent from
the 0.6 order price, below the 5 percent update threshold — the engine
still performs a cancel-and-replace, refuting that repositions happen only
when the movement since the last placement exceeds the update threshold. -/
theorem reposition_threshold_counterexample :
    (manageTrackedPosition cfg0 cexRepoT (29/50) 40000).2 = MgmtAction.reposition
    ∧ (cexRepoT.currentOrderPrice - 29/50) / cexRepoT.currentOrderPrice * 100
        < cfg0.updateThreshold
    ∧ (29/50 - cexRepoT.currentOrderPrice) / cexRepoT.currentOrderPrice * 100
        < cfg0.updateThreshold := by
  have hstop : ¬ dropFromPeakPct cexRepoT.highestPrice (29/50)
      ≥ getTrailingStop cfg0 cexRepoT.marketSlug := by
    rcases getTrailingStop_cases cfg0 cexRepoT.marketSlug with h | h <;>
      rw [ge_iff_le, h] <;>
      norm_num [dropFromPeakPct, cexRepoT, cfg0, SPORTS_TRAILING_STOP]
  have hmanage : (manageTrackedPosition cfg0 cexRepoT (29/50) 40000).2
      = MgmtAction.reposition := by
    simp only [manageTrackedPosition]
    rw [if_neg (by norm_num [cexRepoT]), if_neg hstop,
      if_pos ⟨by simp [cexRepoT], by norm_num [cexRepoT]⟩,
      if_neg (by norm_num [cexRepoT])]
    rw [if_neg (by simp [cexRepoT, MAX_UPDATE_ATTEMPTS])]
  exact ⟨hmanage, by norm_num [cexRepoT, cfg0], by norm_num [cexRepoT, cfg0]⟩

/-- C8: startup recovery restores exactly the persisted entries whose token
still appears in the live position list (dust-filtered at size 0.01): every
restored entry comes from a saved entry joined with its live position, a
saved entry whose token is present is restored, and restoration clears the
order id to none and the order price to 0, refreshes the size from the live
position, and raises highestPrice exactly when the live effective price
exceeds the saved peak. -/
theorem loadState_spec (saved : List TrackedPosition) (real : List RawPosition)
    (pos : TrackedPosition) (realPos : RawPosition) :
    (∀ t ∈ loadState saved real,
        t.tokenId ∈ (real.filter (fun p => p.size > 1/100)).map (fun p => p.tokenId)
        ∧ ∃ s ∈ saved, ∃ r : RawPosition,
            real.find? (fun p => p.tokenId == s.tokenId) = some r
            ∧ t = restoreTracked s r)
    ∧ (pos ∈ saved →
        pos.tokenId ∈ (real.filter (fun p => p.size > 1/100)).map (fun p => p.tokenId) →
        real.find? (fun p => p.tokenId == pos.tokenId) = some realPos →
        restoreTracked pos realPos ∈ loadState saved real)
    ∧ ((restoreTracked pos realPos).currentOrderId = none
        ∧ (restoreTracked pos realPos).currentOrderPrice = 0
        ∧ (restoreTracked pos realPos).size = realPos.size
        ∧ (restoreTracked pos realPos).tokenId = pos.tokenId
        ∧ (restoreTracked pos realPos).highestPrice
            = (if effectivePrice realPos > pos.highestPrice then effectivePrice realPos
               else pos.highestPrice)
        ∧ (pos.highestPrice < (restoreTracked pos realPos).highestPrice
            ↔ pos.highestPrice < effectivePrice realPos)) := by
  refine ⟨?_, ?_, ?_⟩
  · intro t ht
    simp only [loadState] at ht
    rw [List.mem_filterMap] at ht
    obtain ⟨s, hs, hf⟩ := ht
    by_cases hc : ((real.filter (fun p => p.size > 1/100)).map
        (fun p => p.tokenId)).contains s.tokenId = true
    · rw [if_pos hc] at hf
      cases hfind : real.find? (fun p => p.tokenId == s.tokenId) with
      | none => rw [hfind] at hf; exact absurd hf (by simp)
      | some r =>
        rw [hfind] at hf
        have ht' : t = restoreTracked s r := by
          injection hf with h
          exact h.symm
        constructor
        · have : t.tokenId = s.tokenId := by rw [ht']; rfl
          rw [this]
          exact List.elem_iff.mp hc
        · exact ⟨s, hs, r, hfind, ht'⟩
    · rw [if_neg hc] at hf
      exact absurd hf (by simp)
  · intro hmem hid hfind
    simp only [loadState]
    rw [List.mem_filterMap]
    refine ⟨pos, hmem, ?_⟩
    rw [if_pos (List.elem_iff.mpr hid), hfind]
  · refine ⟨rfl, rfl, rfl, rfl, ?_, ?_⟩
    · simp only [restoreTracked]
    · have hh : (restoreTracked pos realPos).highestPrice
          = (if effectivePrice realPos > pos.highestPrice then effectivePrice realPos
             else pos.highestPrice) := by
        simp only [restoreTracked]
      rw [hh]
      split_ifs with h
      · exact iff_of_true h h
      · exact iff_of_false (lt_irrefl pos.highestPrice) h

/-- A persisted tracked entry with a stale order and a saved peak of 0.5. -/
def wSavedT : TrackedPosition :=
  { tokenId := "tokI", entryPrice := 2/5, size := 3, highestPrice := 1/2,
    currentOrderId := some "old", currentOrderPrice := 12/25,
    marketSlug := "election-market", updateAttempts := 2, lastUpdateTime := 5,
    emergencyFailedCount := 0, lastEmergencyAttempt := 0 }

/-- The matching live position: still held, size 7, price moved up to 0.55. -/
def wRealP : RawPosition :=
  { tokenId := "tokI", size := 7, avgPrice := 2/5, currentPrice := 11/20,
    marketSlug := "election-market", outcome := "Yes" }

/-- Witness for C8: the surviving saved entry is restored against its live
position. -/
theorem loadState_spec_witness :
    restoreTracked wSavedT wRealP ∈ loadState [wSavedT] [wRealP] :=
  (loadState_spec [wSavedT] [wRealP] wSavedT wRealP).2.1
    (by simp)
    (by simp [wRealP, wSavedT]; exact ⟨_, ⟨rfl, by norm_num⟩, rfl⟩)
    (by simp [wRealP, wSavedT])

/-- The closure fold of one update cycle adds exactly the unrealized PnL of
the positions missing from the current id set, and touches no snapshot. -/
theorem closeFold_spec (ids : List String) (L : List PositionSnapshot) (acc : PnLState) :
    (L.foldl (fun a p => if ids.contains p.tokenId then a else closePosition a p)
        acc).realizedPnL
      = acc.realizedPnL
        + ((L.filter (fun p => ! ids.contains p.tokenId)).map
            (fun p => p.unrealizedPnL)).sum
    ∧ (L.foldl (fun a p => if ids.contains p.tokenId then a else closePosition a p)
        acc).startSnapshot = acc.startSnapshot
    ∧ (L.foldl (fun a p => if ids.contains p.tokenId then a else closePosition a p)
        acc).currentSnapshot = acc.currentSnapshot := by
  induction L generalizing acc with
  | nil => simp
  | cons p rest ih =>
    by_cases h : ids.contains p.tokenId = true
    · rw [List.foldl_cons, if_pos h]
      have hf : List.filter (fun q => ! ids.contains q.tokenId) (p :: rest)
          = List.filter (fun q => ! ids.contains q.tokenId) rest := by
        simp only [List.filter_cons, h, Bool.not_true, if_neg]
        simp
      rw [hf]
      exact ih acc
    · rw [List.foldl_cons, if_neg h]
      have hf : List.filter (fun q => ! ids.contains q.tokenId) (p :: rest)
          = p :: List.filter (fun q => ! ids.contains q.tokenId) rest := by
        have hb : ids.contains p.tokenId = false := by
          cases hcb : ids.contains p.tokenId
          · rfl
          · exact absurd hcb h
        simp [List.filter_cons, hb]
        exact fun hm => h (List.elem_iff.mpr hm)
      rw [hf]
      obtain ⟨h1, h2, h3⟩ := ih (closePosition acc p)
      refine ⟨?_, ?_, ?_⟩
      · rw [h1, List.map_cons, List.sum_cons]
        have hc : (closePosition acc p).realizedPnL
            = acc.realizedPnL + p.unrealizedPnL := rfl
        rw [hc]
        ring
      · rw [h2]; rfl
      · rw [h3]; rfl

/-- One successful update cycle accumulates the unrealized PnL of the
detected closures into realizedPnL, keeps the start snapshot, and installs
the fetched snapshot as current. -/
theorem update_some_spec (s : PnLState) (snap : PnLSnapshot) :
    (update s (some snap)).1.realizedPnL
      = s.realizedPnL
        + ((cycleClosures s.currentSnapshot snap).map (fun p => p.unrealizedPnL)).sum
    ∧ (update s (some snap)).1.startSnapshot = s.startSnapshot
    ∧ (update s (some snap)).1.currentSnapshot = some snap := by
  cases hc : s.currentSnapshot with
  | none => simp [update, hc, cycleClosures]
  | some prev =>
    simp only [update, hc, cycleClosures]
    obtain ⟨h1, h2, h3⟩ := closeFold_spec (snap.positions.map (fun p => p.tokenId))
      prev.positions { s with currentSnapshot := some snap }
    exact ⟨by rw [h1], by rw [h2], by rw [h3]⟩

/-- A run of successful cycles accumulates the unrealized PnL of all
detected closures, preserves the start snapshot, and keeps a current
snapshot installed. -/
theorem runUpdates_spec (snaps : List PnLSnapshot) (s : PnLState) :
    (runUpdates s snaps).realizedPnL
      = s.realizedPnL
        + ((closuresOfRun s.currentSnapshot snaps).map (fun p => p.unrealizedPnL)).sum
    ∧ (runUpdates s snaps).startSnapshot = s.startSnapshot
    ∧ (s.currentSnapshot.isSome = true →
        (runUpdates s snaps).currentSnapshot.isSome = true) := by
  induction snaps generalizing s with
  | nil => simp [runUpdates, closuresOfRun]
  | cons snap rest ih =>
    have hstep : runUpdates s (snap :: rest) = runUpdates (update s (some snap)).1 rest := by
      simp [runUpdates]
    obtain ⟨u1, u2, u3⟩ := update_some_spec s snap
    obtain ⟨r1, r2, r3⟩ := ih (update s (some snap)).1
    refine ⟨?_, ?_, ?_⟩
    · rw [hstep, r1, u1, u3, closuresOfRun]
      rw [List.map_append, List.sum_append]
      ring
    · rw [hstep, r2, u2]
    · intro _
      rw [hstep]
      exact r3 (by rw [u3]; rfl)

/-- When the tracker is initialized (both snapshots present), the reported
session figure is exactly the realized accumulator. -/
theorem getPnLInfo_sessionPnL (s : PnLState) (h1 : s.startSnapshot.isSome = true)
    (h2 : s.currentSnapshot.isSome = true) :
    (getPnLInfo s).sessionPnL = s.realizedPnL := by
  cases hs : s.startSnapshot with
  | none => rw [hs] at h1; simp at h1
  | some a =>
    cases hc : s.currentSnapshot with
    | none => rw [hc] at h2; simp at h2
    | some b => simp [getPnLInfo, hs, hc]

/-- C4: starting from an initialized tracker with a zero realized
accumulator, after any run of update cycles the realized-PnL accumulator
equals the sum over all detected closures of the last-known unrealized PnL
of each closed position, and the reported sessionPnL equals this
accumulator (the unrealized PnL of still-open positions is reported in the
separate unrealizedPnL field and never enters sessionPnL). -/
theorem pnl_session_realized_sum (s : PnLState) (snaps : List PnLSnapshot)
    (hstart : s.startSnapshot.isSome = true) (hcurr : s.currentSnapshot.isSome = true)
    (hzero : s.realizedPnL = 0) :
    (runUpdates s snaps).realizedPnL
        = ((closuresOfRun s.currentSnapshot snaps).map (fun p => p.unrealizedPnL)).sum
    ∧ (getPnLInfo (runUpdates s snaps)).sessionPnL = (runUpdates s snaps).realizedPnL := by
  obtain ⟨r1, r2, r3⟩ := runUpdates_spec snaps s
  refine ⟨by rw [r1, hzero, zero_add], ?_⟩
  exact getPnLInfo_sessionPnL _ (by rw [r2]; exact hstart) (r3 hcurr)

/-- A still-open position worth 2 dollars of unrealized profit. -/
def wPosSnapA : PositionSnapshot :=
  { tokenId := "tokJ", size := 4, avgPrice := 1/2, currentPrice := 1,
    marketSlug := "market-j", costBasis := 2, currentValue := 4, unrealizedPnL := 2 }

/-- Initial portfolio snapshot holding that position. -/
def wSnap0 : PnLSnapshot :=
  { usdcBalance := 10, positionsValue := 4, totalEquity := 14,
    positions := [wPosSnapA] }

/-- Next portfolio snapshot: the position is gone (closed). -/
def wSnap1 : PnLSnapshot :=
  { usdcBalance := 14, positionsValue := 0, totalEquity := 14, positions := [] }

/-- Tracker state right after initialize() with the first snapshot. -/
def wPnlS0 : PnLState :=
  { startSnapshot := some wSnap0, currentSnapshot := some wSnap0,
    realizedPnL := 0, winCount := 0, lossCount := 0 }

/-- Witness for C4: one cycle detecting one closure of 2 dollars. -/
theorem pnl_session_realized_sum_witness :
    (runUpdates wPnlS0 [wSnap1]).realizedPnL
        = ((closuresOfRun wPnlS0.currentSnapshot [wSnap1]).map
            (fun p => p.unrealizedPnL)).sum
    ∧ (getPnLInfo (runUpdates wPnlS0 [wSnap1])).sessionPnL
        = (runUpdates wPnlS0 [wSnap1]).realizedPnL :=
  pnl_session_realized_sum wPnlS0 [wSnap1] rfl rfl rfl

end PolyBot
